import Mathlib

/-!
Verification of the deduplication store and delivery pipeline of the
rss2telegram repository (Go). The Go sources are shallowly embedded:

* Go strings are Lean `String`s; where the code converts a string to raw
  bytes (`[]byte(s)`) we model the byte list as the list of code points
  (`goBytes`).  For the ASCII data at issue (the separator byte 124 = the
  vertical bar, the base64 alphabet, the file suffix) code points and
  UTF-8 bytes coincide, and the modelling preserves injectivity.
* Go maps are total functions into `Option`, updated pointwise.
* `time.Time` values are `Int` nanoseconds since the epoch; `time.Now()`
  is an explicit `now : Int` argument.
* The external bloom-filter library (bits-and-blooms) is a parameter: a
  `FilterImpl` bundles the carrier together with `new`/`test`/`add` and
  binary (un)marshalling.  Properties of the library (no false negatives,
  marshalling round trip) appear as explicit hypotheses where a theorem
  needs them, and the executable instance `listFilter` (an exact set, the
  swappable instantiation the spec itself suggests) discharges them in
  witnesses.
* File-system writes may fail; a `writeOk : Bool` argument tells whether
  the OS-level write in `saveChannelState` succeeds.  On failure the file
  is unchanged (the write-to-temp-then-rename scheme never leaves a
  half-written canonical file).
-/

/-! ## Maps (Go map semantics: total function into Option, pointwise update) -/

def upd {κ : Type} [DecidableEq κ] {α : Type} (m : κ → Option α) (k : κ) (v : α) :
    κ → Option α :=
  fun k2 => if k2 = k then some v else m k2

theorem upd_self {κ : Type} [DecidableEq κ] {α : Type} (m : κ → Option α) (k : κ) (v : α) :
    upd m k v k = some v := by
  simp [upd]

theorem upd_other {κ : Type} [DecidableEq κ] {α : Type} (m : κ → Option α) (k k2 : κ)
    (v : α) (h : k2 ≠ k) : upd m k v k2 = m k2 := by
  simp [upd, h]

/-! ## Go strings as byte lists (code points model the bytes; see header) -/

def goBytes (s : String) : List Nat := s.data.map Char.toNat

def goString (bs : List Nat) : String := String.mk (bs.map Char.ofNat)

theorem goString_goBytes (s : String) : goString (goBytes s) = s := by
  unfold goString goBytes
  rw [List.map_map]
  have h : (Char.ofNat ∘ Char.toNat) = id := funext fun c => Char.ofNat_toNat c
  rw [h, List.map_id]

theorem goBytes_append (a b : String) : goBytes (a ++ b) = goBytes a ++ goBytes b := by
  simp [goBytes]

/-! ## base64 URL encoding (Go package encoding/base64, URLEncoding) -/

/-- Value of one 6-bit group as a byte of the URL-safe base64 alphabet. -/
def b64Char (n : Nat) : Nat :=
  if n < 26 then 65 + n
  else if n < 52 then 97 + (n - 26)
  else if n < 62 then 48 + (n - 52)
  else if n = 62 then 45
  else 95

/-- Inverse alphabet lookup; `none` on a byte outside the alphabet. -/
def b64CharVal (c : Nat) : Option Nat :=
  if 65 ≤ c ∧ c ≤ 90 then some (c - 65)
  else if 97 ≤ c ∧ c ≤ 122 then some (c - 97 + 26)
  else if 48 ≤ c ∧ c ≤ 57 then some (c - 48 + 52)
  else if c = 45 then some 62
  else if c = 95 then some 63
  else none

/-- base64 encoding of a byte list, three bytes to four alphabet bytes,
with terminal padding 61 (the equals sign), as Go EncodeToString. -/
def b64Encode : List Nat → List Nat
  | [] => []
  | [b0] => [b64Char (b0 / 4), b64Char (b0 % 4 * 16), 61, 61]
  | [b0, b1] => [b64Char (b0 / 4), b64Char (b0 % 4 * 16 + b1 / 16), b64Char (b1 % 16 * 4), 61]
  | b0 :: b1 :: b2 :: rest =>
    b64Char (b0 / 4) :: b64Char (b0 % 4 * 16 + b1 / 16) ::
      b64Char (b1 % 16 * 4 + b2 / 64) :: b64Char (b2 % 64) :: b64Encode rest

/-- base64 decoding, strict about length (a multiple of four), the
alphabet, and the position of padding, as Go DecodeString. -/
def b64Decode : List Nat → Option (List Nat)
  | [] => some []
  | c0 :: c1 :: c2 :: c3 :: rest =>
    match b64CharVal c0, b64CharVal c1 with
    | some v0, some v1 =>
      if c2 = 61 then
        if c3 = 61 ∧ rest = [] then some [v0 * 4 + v1 / 16] else none
      else
        match b64CharVal c2 with
        | some v2 =>
          if c3 = 61 then
            if rest = [] then some [v0 * 4 + v1 / 16, v1 % 16 * 16 + v2 / 4] else none
          else
            match b64CharVal c3 with
            | some v3 =>
              match b64Decode rest with
              | some bs =>
                some ((v0 * 4 + v1 / 16) :: (v1 % 16 * 16 + v2 / 4) :: (v2 % 4 * 64 + v3) :: bs)
              | none => none
            | none => none
        | none => none
    | _, _ => none
  | _ => none

theorem b64CharVal_b64Char_all : ∀ n, n < 64 → b64CharVal (b64Char n) = some n := by
  decide

theorem b64CharVal_b64Char (n : Nat) (h : n < 64) : b64CharVal (b64Char n) = some n :=
  b64CharVal_b64Char_all n h

theorem b64Char_ne_61 (n : Nat) : b64Char n ≠ 61 := by
  unfold b64Char
  split
  · omega
  · split
    · omega
    · split
      · omega
      · split
        · omega
        · omega

theorem b64Decode_b64Encode (bs : List Nat) (h : ∀ b ∈ bs, b < 256) :
    b64Decode (b64Encode bs) = some bs := by
  induction bs using b64Encode.induct with
  | case1 => rfl
  | case2 b0 =>
    have hb0 : b0 < 256 := h b0 (by simp)
    simp only [b64Encode, b64Decode]
    rw [b64CharVal_b64Char _ (by omega), b64CharVal_b64Char _ (by omega)]
    simp only [reduceIte, and_self, if_true]
    simp
    omega
  | case3 b0 b1 =>
    have hb0 : b0 < 256 := h b0 (by simp)
    have hb1 : b1 < 256 := h b1 (by simp)
    simp only [b64Encode, b64Decode]
    rw [b64CharVal_b64Char _ (by omega), b64CharVal_b64Char _ (by omega),
      b64CharVal_b64Char _ (by omega)]
    simp [b64Char_ne_61]
    omega
  | case4 b0 b1 b2 rest ih =>
    have hb0 : b0 < 256 := h b0 (by simp)
    have hb1 : b1 < 256 := h b1 (by simp)
    have hb2 : b2 < 256 := h b2 (by simp)
    have hrest : ∀ b ∈ rest, b < 256 := fun b hb => h b (by simp [hb])
    simp only [b64Encode, b64Decode]
    rw [b64CharVal_b64Char _ (by omega), b64CharVal_b64Char _ (by omega),
      b64CharVal_b64Char _ (by omega), b64CharVal_b64Char _ (by omega)]
    simp [b64Char_ne_61, ih hrest]
    omega

/-! ## Small pieces of the Go standard library used by the store -/

/-- Go strings.TrimSuffix on byte lists. -/
def trimSuffix (s suf : List Nat) : List Nat :=
  if suf.isSuffixOf s then s.take (s.length - suf.length) else s

theorem trimSuffix_append (xs suf : List Nat) : trimSuffix (xs ++ suf) suf = xs := by
  unfold trimSuffix
  rw [if_pos, List.length_append]
  · have h : xs.length + suf.length - suf.length = xs.length := by omega
    rw [h, List.take_left]
  · exact List.isSuffixOf_iff_suffix.mpr (List.suffix_append xs suf)

/-- Go strings.SplitN(s, vertical-bar, 2), as the split around the first
byte 124: `none` when the separator does not occur (one part), otherwise
the two parts. -/
def splitFirst : List Nat → Option (List Nat × List Nat)
  | [] => none
  | c :: rest =>
    if c = 124 then some ([], rest)
    else
      match splitFirst rest with
      | some (a, b) => some (c :: a, b)
      | none => none

theorem splitFirst_append (ch feed : List Nat) (h : 124 ∉ ch) :
    splitFirst (ch ++ 124 :: feed) = some (ch, feed) := by
  induction ch with
  | nil => simp [splitFirst]
  | cons c cs ih =>
    have hc : c ≠ 124 := by
      intro hc
      exact h (by simp [hc])
    have hcs : 124 ∉ cs := fun hm => h (by simp [hm])
    simp [splitFirst, hc, ih hcs]

/-- Little-endian eight-byte encoding of a 64-bit word
(Go binary.LittleEndian.PutUint64). -/
def putUint64LE (n : Nat) : List Nat :=
  [n % 256, n / 256 % 256, n / 65536 % 256, n / 16777216 % 256,
   n / 4294967296 % 256, n / 1099511627776 % 256,
   n / 281474976710656 % 256, n / 72057594037927936 % 256]

/-- Little-endian read of a byte list (Go binary.LittleEndian.Uint64 on
the first eight bytes). -/
def leUint64 (bs : List Nat) : Nat :=
  bs.foldr (fun b acc => b + 256 * acc) 0

/-- Go int64(u) for a uint64 value u: two's complement reinterpretation. -/
def toInt64 (n : Nat) : Int :=
  if n < 9223372036854775808 then (n : Int) else (n : Int) - 18446744073709551616

/-- Go uint64(i) for an int64 value i. -/
def toUint64 (i : Int) : Nat :=
  (i % 18446744073709551616).toNat

theorem leUint64_putUint64LE (n : Nat) (h : n < 18446744073709551616) :
    leUint64 (putUint64LE n) = n := by
  simp [putUint64LE, leUint64]
  omega

theorem timestamp_roundtrip (now : Int) (h0 : 0 ≤ now) (h1 : now < 9223372036854775808) :
    toInt64 (leUint64 (putUint64LE (toUint64 now))) = now := by
  have he : toUint64 now = now.toNat := by
    unfold toUint64
    rw [Int.emod_eq_of_lt h0 (by omega)]
  rw [he, leUint64_putUint64LE _ (by omega)]
  unfold toInt64
  rw [if_pos (by omega)]
  omega

/-! ## The external membership-filter dependency (bits-and-blooms) -/

/-- Interface of the external probabilistic filter library: carrier,
fresh filter (bloom.NewWithEstimates with the fixed system constants),
membership test, add, and binary (un)marshalling.  The storage code only
goes through this interface. -/
structure FilterImpl where
  F : Type
  new : F
  test : F → String → Bool
  add : F → String → F
  marshal : F → List Nat
  unmarshal : List Nat → Option F

/-- Helper for listFilter: parse a length-prefixed concatenation back
into the string list. -/
def listFilterUnmarshal : List Nat → Option (List String)
  | [] => some []
  | n :: rest =>
    if _h : n ≤ rest.length then
      match listFilterUnmarshal (rest.drop n) with
      | some ss => some (goString (rest.take n) :: ss)
      | none => none
    else none
termination_by bs => bs.length
decreasing_by
  simp
  omega

/-- Executable instantiation: an exact set of identifiers.  The spec
names this as a legitimate swap-in for the probabilistic filter; it
satisfies every contract of the library (and, additionally, has no false
positives). -/
def listFilter : FilterImpl where
  F := List String
  new := []
  test f id := f.contains id
  add f id := id :: f
  marshal f := f.foldr (fun s acc => (goBytes s).length :: (goBytes s ++ acc)) []
  unmarshal := listFilterUnmarshal


/-! ## The dedup store (src/internal/storage/storage.go) -/

/-- Bucket-state expiration window, 30 days in nanoseconds
(storage.go stateExpirationDuration). -/
def stateExpirationDuration : Int := 30 * 24 * 3600 * 1000000000

/-- The fixed filename ending ".bloom" as bytes (storage.go bloomFileSuffix). -/
def bloomFileSuffix : List Nat := [46, 98, 108, 111, 111, 109]

/-- storage.go ChannelState: one filter plus its updatedAt time. -/
structure ChannelState (Phi : FilterImpl) where
  filter : Phi.F
  updatedAt : Int

/-- The in-memory bucket map states (feedURL, then channel) together with
the slice of the file system the store owns (full path to file bytes).
storage.go Storage. -/
structure StorageState (Phi : FilterImpl) where
  states : String → Option (String → Option (ChannelState Phi))
  fs : List Nat → Option (List Nat)

/-- storage.go GenerateBloomFileName: base64 of channel, separator bar,
feedURL. -/
def GenerateBloomFileName (feedURL channel : String) : List Nat :=
  b64Encode (goBytes (channel ++ "|" ++ feedURL))

/-- storage.go GetBloomFilePath: data directory, path separator, filename
with the fixed ending. -/
def GetBloomFilePath (dataDir : List Nat) (feedURL channel : String) : List Nat :=
  dataDir ++ 47 :: (GenerateBloomFileName feedURL channel ++ bloomFileSuffix)

/-- storage.go IsItemSeen: false when the feed map or the channel bucket
is missing, otherwise the filter test.  feedName is accepted and unused,
as in the source. -/
def IsItemSeen (Phi : FilterImpl) (st : StorageState Phi)
    (feedURL feedName channel itemID : String) : Bool :=
  match st.states feedURL with
  | none => false
  | some channelStates =>
    match channelStates channel with
    | none => false
    | some state => Phi.test state.filter itemID

/-- storage.go saveChannelState: write the eight timestamp bytes followed
by the marshalled filter to a temporary file and atomically rename it over
the canonical path.  writeOk says whether the OS-level file operations
succeed; on failure the canonical file is untouched (the temp file is
merely orphaned). -/
def saveChannelState (Phi : FilterImpl) (dataDir : List Nat) (writeOk : Bool) (now : Int)
    (fs : List Nat → Option (List Nat)) (feedURL channel : String)
    (state : ChannelState Phi) :
    Except String (List Nat → Option (List Nat)) :=
  let path := GetBloomFilePath dataDir feedURL channel
  if writeOk then
    .ok (upd fs path (putUint64LE (toUint64 now) ++ Phi.marshal state.filter))
  else
    .error "error writing bucket file"

/-- storage.go MarkItemSeen: ensure the feed map and the channel bucket
exist (fresh filter when absent), add the id, advance updatedAt, then
synchronously persist.  The in-memory mutation happens before the save;
a save error is returned but not rolled back. -/
def MarkItemSeen (Phi : FilterImpl) (dataDir : List Nat) (writeOk : Bool) (now : Int)
    (st : StorageState Phi) (feedURL feedName channel itemID : String) :
    Except String Unit × StorageState Phi :=
  let channelStates :=
    match st.states feedURL with
    | some m => m
    | none => fun _ => none
  let state0 :=
    match channelStates channel with
    | some s => s
    | none => { filter := Phi.new, updatedAt := now }
  let state1 : ChannelState Phi := { filter := Phi.add state0.filter itemID, updatedAt := now }
  let states1 := upd st.states feedURL (upd channelStates channel state1)
  match saveChannelState Phi dataDir writeOk now st.fs feedURL channel state1 with
  | .ok fs1 => (.ok (), { states := states1, fs := fs1 })
  | .error e => (.error ("error saving channel state: " ++ e), { states := states1, fs := st.fs })

/-- storage.go loadChannelState: stat and read the bucket file.  A
missing file or an expired stored timestamp installs a fresh bucket — the
source replaces the whole per-feed channel map in those two branches.  A
short file, empty filter data, or an unmarshal failure is an error.  On
success the bucket is installed preserving the rest of the feed map. -/
def loadChannelState (Phi : FilterImpl) (dataDir : List Nat) (now : Int)
    (st : StorageState Phi) (feedURL channel : String) :
    Except String (StorageState Phi) :=
  let path := GetBloomFilePath dataDir feedURL channel
  match st.fs path with
  | none =>
    .ok { st with states := (upd st.states feedURL (upd (fun _ => none) channel
      { filter := Phi.new, updatedAt := now })) }
  | some content =>
    if content.length < 8 then .error "invalid file size"
    else
      let timestamp := toInt64 (leUint64 (content.take 8))
      if now - timestamp > stateExpirationDuration then
        .ok { st with states := (upd st.states feedURL (upd (fun _ => none) channel
          { filter := Phi.new, updatedAt := now })) }
      else
        let filterData := content.drop 8
        if filterData.length = 0 then .error "no filter data in file"
        else
          match Phi.unmarshal filterData with
          | none => .error "error unmarshaling filter"
          | some filter =>
            let feedMap :=
              match st.states feedURL with
              | some m => m
              | none => fun _ => none
            .ok { st with states := (upd st.states feedURL (upd feedMap channel
              { filter := filter, updatedAt := timestamp })) }

/-- storage.go GetLastUpdated: updatedAt of the bucket, or the zero time. -/
def GetLastUpdated (Phi : FilterImpl) (st : StorageState Phi) (feedURL channel : String) :
    Int :=
  match st.states feedURL with
  | none => 0
  | some channelStates =>
    match channelStates channel with
    | none => 0
    | some state => state.updatedAt

/-- The per-file step of the NewStorage startup loop over the globbed
bucket files: trim the fixed ending, base64-decode (a failure aborts the
whole startup), split around the first bar (a failure merely logs a
warning and skips the file), then load that bucket (a failure aborts). -/
def newStorageLoop (Phi : FilterImpl) (dataDir : List Nat) (now : Int) :
    List (List Nat) → StorageState Phi → Except String (StorageState Phi)
  | [], st => .ok st
  | file :: rest, st =>
    let encoded := trimSuffix file bloomFileSuffix
    match b64Decode encoded with
    | none => .error "decoding filename"
    | some decoded =>
      match splitFirst decoded with
      | none => newStorageLoop Phi dataDir now rest st
      | some (chBytes, feedBytes) =>
        let channel := goString chBytes
        let feedURL := goString feedBytes
        match loadChannelState Phi dataDir now st feedURL channel with
        | .error e => .error ("loading state: " ++ e)
        | .ok st1 => newStorageLoop Phi dataDir now rest st1

/-- storage.go NewStorage: start from the empty map and run the startup
loop over the bucket filenames found in the data directory. -/
def NewStorage (Phi : FilterImpl) (dataDir : List Nat) (now : Int)
    (fs : List Nat → Option (List Nat)) (files : List (List Nat)) :
    Except String (StorageState Phi) :=
  newStorageLoop Phi dataDir now files { states := fun _ => none, fs := fs }

/-! ## The RSS handler (internal/rss/handler.go, variant with first-push
and per-feed expiry configuration) -/

/-- One nanosecond count per hour (Go time.Hour). -/
def nsPerHour : Int := 3600 * 1000000000

/-- The fields of a gofeed.Item the pipeline reads.  publishedParsed is
the optional parsed publish time; published is the raw string. -/
structure Item where
  guid : String
  link : String
  title : String
  published : String
  publishedParsed : Option Int
  description : String
  content : String
deriving DecidableEq

/-- config.FeedConfig (variant with first_push and
article_expiration_duration_hours). -/
structure FeedConfig where
  name : String
  url : String
  articleExpirationDurationHours : Option Int
  firstPush : Bool
  channels : List String
  template : String
deriving DecidableEq

/-- handler.go generateItemID: GUID, else link, else title and raw
publish string joined by a bar, else a digest of the content.  The
sha256 digest is the external crypto library; it enters as the
parameter contentHash (standing for the string "content:" followed by
the hex digest). -/
def generateItemID (contentHash : String → String) (item : Item) : String :=
  if item.guid ≠ "" then item.guid
  else if item.link ≠ "" then item.link
  else if item.title ≠ "" ∧ item.published ≠ "" then item.title ++ "|" ++ item.published
  else contentHash item.content

/-- The first-run probe at the top of processFeed: the run is first when
no channel of the feed has a bucket file on disk. -/
def computeIsFirstRun (Phi : FilterImpl) (dataDir : List Nat) (st : StorageState Phi)
    (cfg : FeedConfig) : Bool :=
  !(cfg.channels.any fun channel =>
    (st.fs (GetBloomFilePath dataDir cfg.url channel)).isSome)

/-- MarkItemSeen over every configured channel in order, dropping the
per-call error results (the source only logs them). -/
def markAllChannels (Phi : FilterImpl) (dataDir : List Nat) (writeOk : Bool) (now : Int)
    (cfg : FeedConfig) (itemID : String) (st : StorageState Phi) : StorageState Phi :=
  cfg.channels.foldl
    (fun s channel => (MarkItemSeen Phi dataDir writeOk now s cfg.url cfg.name channel itemID).2)
    st

/-- Accumulator of the candidate-filtering loop of processFeed: the
store state (mutated by first-run marking), the surviving items in
order, and the ids already resolved in this run. -/
structure FilterAcc (Phi : FilterImpl) where
  st : StorageState Phi
  newItems : List Item
  seenInThisRun : List String

/-- One iteration of the candidate-filtering loop of processFeed
(variant with first-push and per-feed expiry): skip items with neither
title nor link; skip ids already resolved this run; on a first run of a
feed that opted out of first push, mark the id seen for every channel
and skip; skip when every channel reports the id seen; skip as stale
when a publish time exists, the feed configures an expiry in hours, and
the age exceeds it; otherwise keep the item and record its id. -/
def filterStep (Phi : FilterImpl) (dataDir : List Nat) (writeOk : Bool)
    (contentHash : String → String) (now : Int) (cfg : FeedConfig) (isFirstRun : Bool)
    (acc : FilterAcc Phi) (item : Item) : FilterAcc Phi :=
  if item.title = "" ∧ item.link = "" then acc
  else
    let itemID := generateItemID contentHash item
    if acc.seenInThisRun.contains itemID then acc
    else if isFirstRun ∧ cfg.firstPush = false then
      { acc with st := markAllChannels Phi dataDir writeOk now cfg itemID acc.st }
    else if cfg.channels.all fun channel =>
        IsItemSeen Phi acc.st cfg.url cfg.name channel itemID then acc
    else
      let stale :=
        match item.publishedParsed, cfg.articleExpirationDurationHours with
        | some t, some hours => decide (now - t > hours * nsPerHour)
        | _, _ => false
      if stale then acc
      else
        { acc with newItems := acc.newItems ++ [item],
                   seenInThisRun := itemID :: acc.seenInThisRun }

/-- The candidate-filtering loop of processFeed over the fetched items. -/
def filterStage (Phi : FilterImpl) (dataDir : List Nat) (writeOk : Bool)
    (contentHash : String → String) (now : Int) (cfg : FeedConfig) (isFirstRun : Bool)
    (st : StorageState Phi) (items : List Item) : FilterAcc Phi :=
  items.foldl (filterStep Phi dataDir writeOk contentHash now cfg isFirstRun)
    { st := st, newItems := [], seenInThisRun := [] }

/-- The stale check of the older handler.go variant, which has no
per-feed configuration and applies the fixed 30-day window
(articleExpirationDuration) to every timestamped item. -/
def staleFixedWindow (now : Int) (item : Item) : Bool :=
  match item.publishedParsed with
  | some t => decide (now - t > stateExpirationDuration)
  | none => false

/-! ### The ordering pass -/

/-- Insert an element into a list sorted by the boolean comparison. -/
def orderedInsert {α : Type} (le : α → α → Bool) (a : α) : List α → List α
  | [] => [a]
  | b :: l => if le a b then a :: b :: l else b :: orderedInsert le a l

/-- A sort producing an ascending reordering.  The source calls
sort.Slice, an unstable sort; any ascending permutation is a faithful
model, and no claim depends on the order of ties. -/
def sortByTime {α : Type} (le : α → α → Bool) : List α → List α
  | [] => []
  | a :: l => orderedInsert le a (sortByTime le l)

/-- Comparison used by processFeed: publish time, ascending (the source
compares with time.Before on items that all carry a time). -/
def itemLe (a b : Item) : Bool :=
  (a.publishedParsed.getD 0) ≤ (b.publishedParsed.getD 0)

/-- The ordering pass of processFeed: split the survivors by presence of
a publish time, sort the timestamped part ascending, and append the
untimestamped part in its original order. -/
def orderStage (items : List Item) : List Item :=
  let withTime := items.filter fun item => item.publishedParsed.isSome
  let withoutTime := items.filter fun item => item.publishedParsed.isNone
  sortByTime itemLe withTime ++ withoutTime

/-! ### Delivery with retry (processFeed goroutine body) -/

/-- Statistics of one run of the send-retry loop: sends attempted,
attempt indices at which the backoff sleep ran, and whether a send
succeeded. -/
structure RetryResult where
  attempts : Nat
  backoffs : List Nat
  sendSuccess : Bool
deriving DecidableEq

/-- The retry loop of processFeed from attempt index i with the given
number of iterations remaining: a successful send exits; a failure on
the last allowed attempt breaks; otherwise the backoff sleep for this
attempt index runs and the loop continues.  send gives the outcome of
the attempt with each index (the external transport). -/
def sendRetryFrom (send : Nat → Bool) : Nat → Nat → RetryResult
  | _, 0 => { attempts := 0, backoffs := [], sendSuccess := false }
  | i, rem + 1 =>
    if send i then { attempts := 1, backoffs := [], sendSuccess := true }
    else if rem = 0 then { attempts := 1, backoffs := [], sendSuccess := false }
    else
      let r := sendRetryFrom send (i + 1) rem
      { attempts := r.attempts + 1, backoffs := i :: r.backoffs,
        sendSuccess := r.sendSuccess }

/-- The full retry loop: maxRetries = 3 attempts in total, starting at
attempt index 0. -/
def sendRetry (send : Nat → Bool) : RetryResult :=
  sendRetryFrom send 0 3

/-- The tail of the delivery goroutine: only on a confirmed send success
is MarkItemSeen called (its error is only logged); a failed task leaves
the store untouched.  Returns the retry statistics, the number of
MarkItemSeen calls, and the resulting store state. -/
def deliverTask (Phi : FilterImpl) (dataDir : List Nat) (writeOk : Bool) (now : Int)
    (send : Nat → Bool) (st : StorageState Phi) (feedURL feedName channel itemID : String) :
    RetryResult × Nat × StorageState Phi :=
  let r := sendRetry send
  if r.sendSuccess then
    (r, 1, (MarkItemSeen Phi dataDir writeOk now st feedURL feedName channel itemID).2)
  else
    (r, 0, st)

/-- The per-channel body of the dispatch loop of processFeed: an id the
channel already saw is skipped, an empty rendered message is skipped,
otherwise the delivery task runs.  render stands for formatMessage (the
external template/markdown machinery); sends counts send attempts. -/
def dispatchChannel (Phi : FilterImpl) (dataDir : List Nat) (writeOk : Bool)
    (contentHash : String → String) (render : Item → String → String)
    (send : String → String → Nat → Bool) (now : Int) (cfg : FeedConfig) (item : Item)
    (st : StorageState Phi) (channel : String) : Nat × StorageState Phi :=
  let itemID := generateItemID contentHash item
  if IsItemSeen Phi st cfg.url cfg.name channel itemID then (0, st)
  else
    let message := render item cfg.template
    if message = "" then (0, st)
    else
      let out := deliverTask Phi dataDir writeOk now (send channel message) st
        cfg.url cfg.name channel itemID
      (out.1.attempts, out.2.2)

/-- The dispatch loop of processFeed over the ordered surviving items and
the configured channels, counting send attempts.  The source runs the
per-channel bodies on a worker pool; the model runs them in enqueue
order, which is the only order the claims speak about. -/
def dispatchStage (Phi : FilterImpl) (dataDir : List Nat) (writeOk : Bool)
    (contentHash : String → String) (render : Item → String → String)
    (send : String → String → Nat → Bool) (now : Int) (cfg : FeedConfig)
    (items : List Item) (st : StorageState Phi) : Nat × StorageState Phi :=
  items.foldl
    (fun acc item =>
      cfg.channels.foldl
        (fun acc2 channel =>
          let out := dispatchChannel Phi dataDir writeOk contentHash render send now cfg
            item acc2.2 channel
          (acc2.1 + out.1, out.2))
        acc)
    (0, st)

/-- processFeed (variant with first-push): empty fetch ends the cycle;
otherwise probe for the first run, filter the candidates, order the
survivors, and dispatch.  Returns the final store state, the ordered
survivor list, and the number of send attempts. -/
def processFeed (Phi : FilterImpl) (dataDir : List Nat) (writeOk : Bool)
    (contentHash : String → String) (render : Item → String → String)
    (send : String → String → Nat → Bool) (now : Int) (cfg : FeedConfig)
    (st : StorageState Phi) (items : List Item) :
    StorageState Phi × List Item × Nat :=
  if items.isEmpty then (st, [], 0)
  else
    let isFirstRun := computeIsFirstRun Phi dataDir st cfg
    let acc := filterStage Phi dataDir writeOk contentHash now cfg isFirstRun st items
    let ordered := orderStage acc.newItems
    let out := dispatchStage Phi dataDir writeOk contentHash render send now cfg ordered acc.st
    (out.2, ordered, out.1)

/-! ## Properties of the executable filter instantiation -/

theorem listFilter_test_add (f : List String) (id : String) :
    listFilter.test (listFilter.add f id) id = true := by
  simp [listFilter]

theorem listFilter_test_mono (f : List String) (id j : String)
    (h : listFilter.test f id = true) : listFilter.test (listFilter.add f j) id = true := by
  simp [listFilter] at h ⊢
  exact .inr h

theorem listFilter_test_new (id : String) : listFilter.test listFilter.new id = false := by
  simp [listFilter]

theorem listFilter_test_add_other (f : List String) (id j : String) (h : id ≠ j) :
    listFilter.test (listFilter.add f j) id = listFilter.test f id := by
  simp [listFilter, List.contains_cons, h]

theorem listFilter_unmarshal_marshal (f : List String) :
    listFilter.unmarshal (listFilter.marshal f) = some f := by
  show listFilterUnmarshal (f.foldr (fun s acc => (goBytes s).length :: (goBytes s ++ acc)) []) = some f
  induction f with
  | nil => simp [listFilterUnmarshal]
  | cons s f ih =>
    simp only [List.foldr_cons]
    rw [listFilterUnmarshal]
    rw [dif_pos (by simp)]
    rw [List.drop_left, ih, List.take_left, goString_goBytes]

theorem listFilter_marshal_ne_nil (f : List String) (id : String) :
    listFilter.marshal (listFilter.add f id) ≠ [] := by
  simp [listFilter]

/-! ## Behaviour of marking and testing -/

/-- Unfolding lemma: IsItemSeen reads only the states map. -/
theorem isItemSeen_def (Phi : FilterImpl) (st : StorageState Phi)
    (feedURL feedName channel itemID : String) :
    IsItemSeen Phi st feedURL feedName channel itemID
      = (match st.states feedURL with
         | none => false
         | some channelStates =>
           match channelStates channel with
           | none => false
           | some state => Phi.test state.filter itemID) := rfl

/-- The per-feed channel map MarkItemSeen starts from (empty when the
feed is absent). -/
def feedMapOf (Phi : FilterImpl) (st : StorageState Phi) (feedURL : String) :
    String → Option (ChannelState Phi) :=
  match st.states feedURL with
  | some m => m
  | none => fun _ => none

/-- The bucket MarkItemSeen starts from (fresh when absent). -/
def bucketOf (Phi : FilterImpl) (st : StorageState Phi) (now : Int)
    (feedURL channel : String) : ChannelState Phi :=
  match feedMapOf Phi st feedURL channel with
  | some s => s
  | none => { filter := Phi.new, updatedAt := now }

/-- The in-memory map after MarkItemSeen, regardless of the save outcome. -/
theorem mark_states (Phi : FilterImpl) (dataDir : List Nat) (writeOk : Bool) (now : Int)
    (st : StorageState Phi) (u n ch id : String) :
    (MarkItemSeen Phi dataDir writeOk now st u n ch id).2.states
      = upd st.states u (upd (feedMapOf Phi st u) ch
          { filter := Phi.add (bucketOf Phi st now u ch).filter id, updatedAt := now }) := by
  cases writeOk <;> rfl

theorem isItemSeen_mark_self (Phi : FilterImpl)
    (htest_add : ∀ f id, Phi.test (Phi.add f id) id = true)
    (dataDir : List Nat) (writeOk : Bool) (now : Int) (st : StorageState Phi)
    (feedURL feedName feedName2 channel itemID : String) :
    IsItemSeen Phi (MarkItemSeen Phi dataDir writeOk now st feedURL feedName channel itemID).2
      feedURL feedName2 channel itemID = true := by
  rw [isItemSeen_def, mark_states]
  simp [upd, htest_add]

theorem isItemSeen_mark_preserve (Phi : FilterImpl)
    (hmono : ∀ f id j, Phi.test f id = true → Phi.test (Phi.add f j) id = true)
    (dataDir : List Nat) (writeOk : Bool) (now : Int) (st : StorageState Phi)
    (u n ch id u2 n2 ch2 id2 : String)
    (h : IsItemSeen Phi st u2 n2 ch2 id2 = true) :
    IsItemSeen Phi (MarkItemSeen Phi dataDir writeOk now st u n ch id).2 u2 n2 ch2 id2
      = true := by
  rw [isItemSeen_def] at h
  rw [isItemSeen_def, mark_states]
  by_cases hu : u2 = u
  · subst hu
    cases hs : st.states u2 with
    | none => rw [hs] at h; exact absurd h (by simp)
    | some m =>
      rw [hs] at h
      simp only at h
      by_cases hch : ch2 = ch
      · subst hch
        cases hm : m ch2 with
        | none => rw [hm] at h; exact absurd h (by simp)
        | some s =>
          rw [hm] at h
          simp only at h
          simp [upd, feedMapOf, bucketOf, hs, hm, hmono _ _ _ h]
      · simp [upd, feedMapOf, hs, hch, h]
  · simp [upd, hu]
    exact h

theorem isItemSeen_mark_preserve_false (Phi : FilterImpl)
    (hnew : ∀ id, Phi.test Phi.new id = false)
    (hother : ∀ f id j, id ≠ j → Phi.test (Phi.add f j) id = Phi.test f id)
    (dataDir : List Nat) (writeOk : Bool) (now : Int) (st : StorageState Phi)
    (u n ch id u2 n2 ch2 id2 : String)
    (hdiff : ¬(u = u2 ∧ ch = ch2 ∧ id = id2))
    (h : IsItemSeen Phi st u2 n2 ch2 id2 = false) :
    IsItemSeen Phi (MarkItemSeen Phi dataDir writeOk now st u n ch id).2 u2 n2 ch2 id2
      = false := by
  rw [isItemSeen_def] at h
  rw [isItemSeen_def, mark_states]
  by_cases hu : u2 = u
  · subst hu
    by_cases hch : ch2 = ch
    · subst hch
      have hid : id2 ≠ id := by
        intro hii
        exact hdiff ⟨rfl, rfl, hii.symm⟩
      cases hs : st.states u2 with
      | none =>
        simp [upd, feedMapOf, bucketOf, hs, hother _ _ _ hid, hnew]
      | some m =>
        rw [hs] at h
        simp only at h
        cases hm : m ch2 with
        | none =>
          simp [upd, feedMapOf, bucketOf, hs, hm, hother _ _ _ hid, hnew]
        | some s =>
          rw [hm] at h
          simp only at h
          simp [upd, feedMapOf, bucketOf, hs, hm, hother _ _ _ hid, h]
    · cases hs : st.states u2 with
      | none =>
        simp [upd, feedMapOf, hs, hch]
      | some m =>
        rw [hs] at h
        simp only at h
        simp [upd, feedMapOf, hs, hch, h]
  · simp [upd, hu]
    exact h

/-- The file map and result of MarkItemSeen with a succeeding write: the
canonical bucket file now holds the timestamp bytes followed by the
marshalled updated filter. -/
theorem mark_ok_fs (Phi : FilterImpl) (dataDir : List Nat) (now : Int)
    (st : StorageState Phi) (u n ch id : String) :
    (MarkItemSeen Phi dataDir true now st u n ch id).1 = .ok ()
    ∧ (MarkItemSeen Phi dataDir true now st u n ch id).2.fs
      = upd st.fs (GetBloomFilePath dataDir u ch)
          (putUint64LE (toUint64 now)
            ++ Phi.marshal (Phi.add (bucketOf Phi st now u ch).filter id)) := by
  exact ⟨rfl, rfl⟩

/-- The result of MarkItemSeen with a failing write: an error is
returned and the file map is untouched. -/
theorem mark_fail_fs (Phi : FilterImpl) (dataDir : List Nat) (now : Int)
    (st : StorageState Phi) (u n ch id : String) :
    (MarkItemSeen Phi dataDir false now st u n ch id).1
      = .error "error saving channel state: error writing bucket file"
    ∧ (MarkItemSeen Phi dataDir false now st u n ch id).2.fs = st.fs := by
  exact ⟨rfl, rfl⟩

/-- A later mark operation in the same process lifetime. -/
structure MarkOp where
  writeOk : Bool
  now : Int
  feedURL : String
  feedName : String
  channel : String
  itemID : String

/-- Run a sequence of MarkItemSeen calls, dropping the per-call results
(a Go caller may or may not inspect them; the in-memory state evolves
either way). -/
def runMarks (Phi : FilterImpl) (dataDir : List Nat) (st : StorageState Phi) :
    List MarkOp → StorageState Phi
  | [] => st
  | op :: ops =>
    runMarks Phi dataDir
      (MarkItemSeen Phi dataDir op.writeOk op.now st op.feedURL op.feedName op.channel
        op.itemID).2 ops

theorem isItemSeen_runMarks_preserve (Phi : FilterImpl)
    (hmono : ∀ f id j, Phi.test f id = true → Phi.test (Phi.add f j) id = true)
    (dataDir : List Nat) (ops : List MarkOp) (st : StorageState Phi)
    (u2 n2 ch2 id2 : String)
    (h : IsItemSeen Phi st u2 n2 ch2 id2 = true) :
    IsItemSeen Phi (runMarks Phi dataDir st ops) u2 n2 ch2 id2 = true := by
  induction ops generalizing st with
  | nil => exact h
  | cons op ops ih =>
    exact ih _ (isItemSeen_mark_preserve Phi hmono dataDir op.writeOk op.now st
      op.feedURL op.feedName op.channel op.itemID u2 n2 ch2 id2 h)

theorem isItemSeen_runMarks_preserve_false (Phi : FilterImpl)
    (hnew : ∀ id, Phi.test Phi.new id = false)
    (hother : ∀ f id j, id ≠ j → Phi.test (Phi.add f j) id = Phi.test f id)
    (dataDir : List Nat) (ops : List MarkOp) (st : StorageState Phi)
    (u2 n2 ch2 id2 : String)
    (hnever : ∀ op ∈ ops,
      ¬(op.feedURL = u2 ∧ op.channel = ch2 ∧ op.itemID = id2))
    (h : IsItemSeen Phi st u2 n2 ch2 id2 = false) :
    IsItemSeen Phi (runMarks Phi dataDir st ops) u2 n2 ch2 id2 = false := by
  induction ops generalizing st with
  | nil => exact h
  | cons op ops ih =>
    refine ih _ (fun o ho => hnever o (by simp [ho])) ?_
    exact isItemSeen_mark_preserve_false Phi hnew hother dataDir op.writeOk op.now st
      op.feedURL op.feedName op.channel op.itemID u2 n2 ch2 id2
      (hnever op (by simp)) h

theorem putUint64LE_length (n : Nat) : (putUint64LE n).length = 8 := rfl

/-- C2: after a successful MarkItemSeen(feedURL, feedName, channel, id),
IsItemSeen(feedURL, feedName, channel, id) is true after any sequence of
further marks in the same process lifetime, and also after the persisted
bucket is reloaded by loadChannelState into a fresh store, provided the
stored timestamp is within the 30-day expiration window.  The filter
hypotheses are the library contract: adding never loses membership (no
false negatives) and binary marshalling round-trips. -/
theorem markItemSeen_isItemSeen_and_reload (Phi : FilterImpl)
    (htest_add : ∀ f id, Phi.test (Phi.add f id) id = true)
    (hmono : ∀ f id j, Phi.test f id = true → Phi.test (Phi.add f j) id = true)
    (hroundtrip : ∀ f, Phi.unmarshal (Phi.marshal f) = some f)
    (hmarshal_ne : ∀ f id, Phi.marshal (Phi.add f id) ≠ [])
    (dataDir : List Nat) (st : StorageState Phi)
    (feedURL feedName channel itemID : String) (now now2 : Int)
    (h0 : 0 ≤ now) (h1 : now < 9223372036854775808)
    (hwin : now2 - now ≤ stateExpirationDuration) :
    (∀ ops, IsItemSeen Phi
        (runMarks Phi dataDir
          (MarkItemSeen Phi dataDir true now st feedURL feedName channel itemID).2 ops)
        feedURL feedName channel itemID = true)
    ∧ ∃ st2, loadChannelState Phi dataDir now2
        { states := fun _ => none,
          fs := (MarkItemSeen Phi dataDir true now st feedURL feedName channel itemID).2.fs }
        feedURL channel = .ok st2
      ∧ IsItemSeen Phi st2 feedURL feedName channel itemID = true := by
  constructor
  · intro ops
    exact isItemSeen_runMarks_preserve Phi hmono dataDir ops _ _ _ _ _
      (isItemSeen_mark_self Phi htest_add dataDir true now st feedURL feedName feedName
        channel itemID)
  · have hfs := (mark_ok_fs Phi dataDir now st feedURL feedName channel itemID).2
    have hlook : (MarkItemSeen Phi dataDir true now st feedURL feedName channel itemID).2.fs
        (GetBloomFilePath dataDir feedURL channel)
        = some (putUint64LE (toUint64 now)
            ++ Phi.marshal (Phi.add (bucketOf Phi st now feedURL channel).filter itemID)) := by
      rw [hfs]
      exact upd_self _ _ _
    unfold loadChannelState
    simp only [hlook]
    have hlen : (putUint64LE (toUint64 now)
        ++ Phi.marshal (Phi.add (bucketOf Phi st now feedURL channel).filter itemID)).length
        = 8 + (Phi.marshal (Phi.add (bucketOf Phi st now feedURL channel).filter itemID)).length := by
      rw [List.length_append, putUint64LE_length]
    have htake : (putUint64LE (toUint64 now)
        ++ Phi.marshal (Phi.add (bucketOf Phi st now feedURL channel).filter itemID)).take 8
        = putUint64LE (toUint64 now) :=
      List.take_left' (putUint64LE_length _)
    have hdrop : (putUint64LE (toUint64 now)
        ++ Phi.marshal (Phi.add (bucketOf Phi st now feedURL channel).filter itemID)).drop 8
        = Phi.marshal (Phi.add (bucketOf Phi st now feedURL channel).filter itemID) :=
      List.drop_left' (putUint64LE_length _)
    rw [if_neg (by rw [hlen]; omega)]
    rw [htake, timestamp_roundtrip now h0 h1]
    rw [if_neg (by omega)]
    rw [hdrop]
    rw [if_neg (by
      intro hz
      exact hmarshal_ne _ _ (List.length_eq_zero.mp hz))]
    rw [hroundtrip]
    refine ⟨_, rfl, ?_⟩
    rw [isItemSeen_def]
    simp [upd]
    exact htest_add _ _

/-- Witness for the C2 theorem at concrete inputs: the exact-set filter,
one mark of id g1 for feed u and channel c, one later unrelated mark,
reload at the same instant. -/
theorem markItemSeen_isItemSeen_and_reload_witness :
    IsItemSeen listFilter
      (runMarks listFilter (goBytes "data")
        (MarkItemSeen listFilter (goBytes "data") true 0
          { states := fun _ => none, fs := fun _ => none } "u" "f" "c" "g1").2
        [{ writeOk := true, now := 1, feedURL := "u2", feedName := "f2", channel := "c",
           itemID := "x" }])
      "u" "f" "c" "g1" = true
    ∧ ∃ st2, loadChannelState listFilter (goBytes "data") 0
        { states := fun _ => none,
          fs := (MarkItemSeen listFilter (goBytes "data") true 0
            { states := fun _ => none, fs := fun _ => none } "u" "f" "c" "g1").2.fs }
        "u" "c" = .ok st2
      ∧ IsItemSeen listFilter st2 "u" "f" "c" "g1" = true := by
  have h := markItemSeen_isItemSeen_and_reload listFilter listFilter_test_add
    listFilter_test_mono listFilter_unmarshal_marshal listFilter_marshal_ne_nil
    (goBytes "data") { states := fun _ => none, fs := fun _ => none }
    "u" "f" "c" "g1" 0 0 (by decide) (by decide) (by decide)
  exact ⟨h.1 _, h.2⟩

/-- C8: an id never marked for a (feedURL, channel) pair tests unseen —
with no bucket (feed or channel entry missing) IsItemSeen is false
outright, and with a bucket it is exactly the membership-filter test, so
a filter without false positives (the hypotheses; exactly true of the
exact-set instantiation, approximately true of the bloom filter) reports
false for every never-marked id over any history of marks from a fresh
store. -/
theorem isItemSeen_never_marked (Phi : FilterImpl)
    (hnew : ∀ id, Phi.test Phi.new id = false)
    (hother : ∀ f id j, id ≠ j → Phi.test (Phi.add f j) id = Phi.test f id)
    (dataDir : List Nat) (fs0 : List Nat → Option (List Nat)) (ops : List MarkOp)
    (feedURL feedName channel itemID : String)
    (hnever : ∀ op ∈ ops, ¬(op.feedURL = feedURL ∧ op.channel = channel ∧ op.itemID = itemID)) :
    IsItemSeen Phi (runMarks Phi dataDir { states := fun _ => none, fs := fs0 } ops)
      feedURL feedName channel itemID = false
    ∧ (∀ st : StorageState Phi, st.states feedURL = none →
        IsItemSeen Phi st feedURL feedName channel itemID = false)
    ∧ (∀ (st : StorageState Phi) m, st.states feedURL = some m → m channel = none →
        IsItemSeen Phi st feedURL feedName channel itemID = false)
    ∧ (∀ (st : StorageState Phi) m s, st.states feedURL = some m → m channel = some s →
        IsItemSeen Phi st feedURL feedName channel itemID = Phi.test s.filter itemID) := by
  refine ⟨?_, ?_, ?_, ?_⟩
  · refine isItemSeen_runMarks_preserve_false Phi hnew hother dataDir ops _ _ _ _ _ hnever ?_
    rw [isItemSeen_def]
  · intro st hs
    rw [isItemSeen_def, hs]
  · intro st m hs hm
    rw [isItemSeen_def, hs]
    simp only
    rw [hm]
  · intro st m s hs hm
    rw [isItemSeen_def, hs]
    simp only
    rw [hm]

/-- Witness for the C8 theorem: a history of three marks, none of them
for the triple (u, c, g1), leaves g1 unseen for (u, c); the structural
clauses are read off at concrete states. -/
theorem isItemSeen_never_marked_witness :
    IsItemSeen listFilter
      (runMarks listFilter (goBytes "data") { states := fun _ => none, fs := fun _ => none }
        [{ writeOk := true, now := 0, feedURL := "u", feedName := "f", channel := "c",
           itemID := "g2" },
         { writeOk := true, now := 1, feedURL := "u", feedName := "f", channel := "c2",
           itemID := "g1" },
         { writeOk := false, now := 2, feedURL := "u3", feedName := "f", channel := "c",
           itemID := "g1" }])
      "u" "f" "c" "g1" = false := by
  have h := isItemSeen_never_marked listFilter listFilter_test_new listFilter_test_add_other
    (goBytes "data") (fun _ => none)
    [{ writeOk := true, now := 0, feedURL := "u", feedName := "f", channel := "c",
       itemID := "g2" },
     { writeOk := true, now := 1, feedURL := "u", feedName := "f", channel := "c2",
       itemID := "g1" },
     { writeOk := false, now := 2, feedURL := "u3", feedName := "f", channel := "c",
       itemID := "g1" }]
    "u" "f" "c" "g1" (by decide)
  exact h.1

/-- C10: with a failing disk write MarkItemSeen returns the save error,
yet the in-memory mutation has already happened — the id is in the
bucket (IsItemSeen true), lastUpdated has advanced to now — while the
file map is untouched. -/
theorem markItemSeen_save_failure_mutates (Phi : FilterImpl)
    (htest_add : ∀ f id, Phi.test (Phi.add f id) id = true)
    (dataDir : List Nat) (st : StorageState Phi)
    (feedURL feedName channel itemID : String) (now : Int) :
    (MarkItemSeen Phi dataDir false now st feedURL feedName channel itemID).1
      = .error "error saving channel state: error writing bucket file"
    ∧ (MarkItemSeen Phi dataDir false now st feedURL feedName channel itemID).2.fs = st.fs
    ∧ IsItemSeen Phi (MarkItemSeen Phi dataDir false now st feedURL feedName channel itemID).2
        feedURL feedName channel itemID = true
    ∧ GetLastUpdated Phi (MarkItemSeen Phi dataDir false now st feedURL feedName channel itemID).2
        feedURL channel = now := by
  refine ⟨rfl, rfl, ?_, ?_⟩
  · exact isItemSeen_mark_self Phi htest_add dataDir false now st feedURL feedName feedName
      channel itemID
  · unfold GetLastUpdated
    rw [mark_states]
    simp [upd]

/-- Witness for the C10 theorem at concrete inputs. -/
theorem markItemSeen_save_failure_mutates_witness :
    (MarkItemSeen listFilter (goBytes "data") false 5
      { states := fun _ => none, fs := fun _ => none } "u" "f" "c" "g1").1
      = .error "error saving channel state: error writing bucket file"
    ∧ (MarkItemSeen listFilter (goBytes "data") false 5
        { states := fun _ => none, fs := fun _ => none } "u" "f" "c" "g1").2.fs
      = (fun _ => none)
    ∧ IsItemSeen listFilter (MarkItemSeen listFilter (goBytes "data") false 5
        { states := fun _ => none, fs := fun _ => none } "u" "f" "c" "g1").2
        "u" "f" "c" "g1" = true
    ∧ GetLastUpdated listFilter (MarkItemSeen listFilter (goBytes "data") false 5
        { states := fun _ => none, fs := fun _ => none } "u" "f" "c" "g1").2 "u" "c" = 5 :=
  markItemSeen_save_failure_mutates listFilter listFilter_test_add (goBytes "data")
    { states := fun _ => none, fs := fun _ => none } "u" "f" "c" "g1" 5

theorem newStorageLoop_error_of_undecodable (Phi : FilterImpl) (dataDir : List Nat)
    (now : Int) (files : List (List Nat)) (st : StorageState Phi)
    (hbad : ∃ file ∈ files, b64Decode (trimSuffix file bloomFileSuffix) = none) :
    ∃ e, newStorageLoop Phi dataDir now files st = .error e := by
  induction files generalizing st with
  | nil => simp at hbad
  | cons file rest ih =>
    unfold newStorageLoop
    dsimp only
    cases hdec : b64Decode (trimSuffix file bloomFileSuffix) with
    | none => exact ⟨"decoding filename", rfl⟩
    | some decoded =>
      have hrest : ∃ f ∈ rest, b64Decode (trimSuffix f bloomFileSuffix) = none := by
        rcases hbad with ⟨f, hf, hb⟩
        rcases List.mem_cons.mp hf with hf | hf
        · rw [hf, hdec] at hb
          exact absurd hb (by simp)
        · exact ⟨f, hf, hb⟩
      dsimp only
      cases hsplit : splitFirst decoded with
      | none => exact ih st hrest
      | some p =>
        obtain ⟨chB, feedB⟩ := p
        dsimp only
        cases hload : loadChannelState Phi dataDir now st (goString feedB) (goString chB) with
        | error e => exact ⟨_, rfl⟩
        | ok st1 => exact ih st1 hrest

/-- C1 counterexample: a data directory holding one bucket file whose
name decodes (base64 of the three bytes of abc) but is structurally
malformed (no separator bar), on which NewStorage succeeds and returns a
store instead of failing. -/
theorem newStorage_malformed_name_not_fatal :
    (NewStorage listFilter (goBytes "data") 0 (fun _ => none)
      [b64Encode (goBytes "abc") ++ bloomFileSuffix]).isOk = true
    ∧ b64Decode (trimSuffix (b64Encode (goBytes "abc") ++ bloomFileSuffix) bloomFileSuffix)
      = some (goBytes "abc")
    ∧ splitFirst (goBytes "abc") = none := by
  refine ⟨?_, ?_, ?_⟩ <;> decide

/-- C1 amended: startup fails as a whole — an error and no store —
whenever some bucket filename cannot be base64-decoded, over any data
directory; but a filename that decodes to a string without the separator
bar (structurally malformed) is skipped with a warning and the loop
continues with the state unchanged by that file. -/
theorem newStorage_error_on_undecodable (Phi : FilterImpl) (dataDir : List Nat) (now : Int)
    (fs : List Nat → Option (List Nat)) (files : List (List Nat))
    (hbad : ∃ file ∈ files, b64Decode (trimSuffix file bloomFileSuffix) = none) :
    (∃ e, NewStorage Phi dataDir now fs files = .error e)
    ∧ ∀ (file : List Nat) (rest : List (List Nat)) (st : StorageState Phi)
        (decoded : List Nat),
        b64Decode (trimSuffix file bloomFileSuffix) = some decoded →
        splitFirst decoded = none →
        newStorageLoop Phi dataDir now (file :: rest) st
          = newStorageLoop Phi dataDir now rest st := by
  constructor
  · exact newStorageLoop_error_of_undecodable Phi dataDir now files _ hbad
  · intro file rest st decoded hdec hsplit
    conv_lhs => unfold newStorageLoop
    dsimp only
    rw [hdec]
    dsimp only
    rw [hsplit]

/-- Witness for the amended C1 theorem: a directory with one undecodable
filename (four percent bytes) makes NewStorage error, and the skip
clause is exercised on the malformed abc filename. -/
theorem newStorage_error_on_undecodable_witness :
    (∃ e, NewStorage listFilter (goBytes "data") 0 (fun _ => none)
      [[37, 37, 37, 37] ++ bloomFileSuffix] = .error e)
    ∧ newStorageLoop listFilter (goBytes "data") 0
        ([b64Encode (goBytes "abc") ++ bloomFileSuffix])
        { states := fun _ => none, fs := fun _ => none }
      = newStorageLoop listFilter (goBytes "data") 0 []
        { states := fun _ => none, fs := fun _ => none } := by
  have h := newStorage_error_on_undecodable listFilter (goBytes "data") 0 (fun _ => none)
    [[37, 37, 37, 37] ++ bloomFileSuffix]
    ⟨[37, 37, 37, 37] ++ bloomFileSuffix, by simp, by decide⟩
  exact ⟨h.1, h.2 _ _ _ (goBytes "abc") (by decide) (by decide)⟩

/-- C3 failing input, evaluated: a store already holding the loaded
bucket of channel A of feed F, and on disk an expired bucket file for
channel B of the same feed (stored timestamp 0, read thirty days and one
nanosecond later).  Loading B succeeds with a soft reset — but the
in-memory entry for sibling channel A has been wiped, because the
expired (and the missing-file) branch of loadChannelState overwrites the
whole per-feed channel map. -/
theorem loadChannelState_expiry_wipes_sibling :
    ∃ st1, loadChannelState listFilter (goBytes "data")
        (stateExpirationDuration + 1)
        { states := upd (fun _ => none) "F"
            (upd (fun _ => none) "A" { filter := ["x"], updatedAt := 7 }),
          fs := upd (fun _ => none) (GetBloomFilePath (goBytes "data") "F" "B")
            (putUint64LE 0) }
        "F" "B" = .ok st1
      ∧ (∃ m, st1.states "F" = some m ∧ m "A" = none ∧ (m "B").isSome = true)
      ∧ (upd (fun _ => none) "F"
          (upd (fun _ => none) "A"
            ({ filter := ["x"], updatedAt := 7 } : ChannelState listFilter)) "F").isSome
        = true
      ∧ listFilter.test (["x"] : List String) "x" = true := by
  refine ⟨_, rfl, ?_, rfl, rfl⟩
  refine ⟨upd (fun _ => none) "B"
    { filter := listFilter.new, updatedAt := stateExpirationDuration + 1 }, rfl, rfl, rfl⟩

/-- C9 counterexample: with the channel a-bar-b (which contains the
separator bar) and feed URL c, the startup decoding of the generated
filename recovers the pair (a, b-bar-c), not the original pair — the
split at the first bar cannot tell where the channel ends. -/
theorem bloomFileName_roundtrip_counterexample :
    ((b64Decode (trimSuffix (GenerateBloomFileName "c" "a|b" ++ bloomFileSuffix)
        bloomFileSuffix)).bind (fun decoded => splitFirst decoded))
      = some (goBytes "a", goBytes "b|c")
    ∧ some (goBytes "a", goBytes "b|c") ≠ some (goBytes "a|b", goBytes "c") := by
  constructor <;> decide

/-- C9 amended: for every channel whose bytes do not contain the
separator bar 124 and every feedURL, the startup decoding (trim the
fixed ending, base64-decode, split at the first bar, read the parts back
as strings) of the filename produced by GenerateBloomFileName recovers
exactly the original (channel, feedURL).  The byte-range hypotheses
reflect the code-point byte model of this embedding and hold for all
byte strings. -/
theorem bloomFileName_roundtrip (channel feedURL : String)
    (hch : (124 : Nat) ∉ goBytes channel)
    (hb1 : ∀ b ∈ goBytes channel, b < 256) (hb2 : ∀ b ∈ goBytes feedURL, b < 256) :
    b64Decode (trimSuffix (GenerateBloomFileName feedURL channel ++ bloomFileSuffix)
        bloomFileSuffix)
      = some (goBytes channel ++ 124 :: goBytes feedURL)
    ∧ splitFirst (goBytes channel ++ 124 :: goBytes feedURL)
      = some (goBytes channel, goBytes feedURL)
    ∧ goString (goBytes channel) = channel ∧ goString (goBytes feedURL) = feedURL := by
  have hdata : goBytes (channel ++ "|" ++ feedURL)
      = goBytes channel ++ 124 :: goBytes feedURL := by
    rw [goBytes_append, goBytes_append, List.append_assoc]
    rfl
  refine ⟨?_, splitFirst_append _ _ hch, goString_goBytes channel, goString_goBytes feedURL⟩
  unfold GenerateBloomFileName
  rw [trimSuffix_append, hdata]
  apply b64Decode_b64Encode
  intro b hb
  rcases List.mem_append.mp hb with hb | hb
  · exact hb1 b hb
  · rcases List.mem_cons.mp hb with hb | hb
    · omega
    · exact hb2 b hb

/-- Witness for the amended C9 theorem at the concrete channel at-c and
feed URL https://x. -/
theorem bloomFileName_roundtrip_witness :
    b64Decode (trimSuffix (GenerateBloomFileName "https://x" "@c" ++ bloomFileSuffix)
        bloomFileSuffix)
      = some (goBytes "@c" ++ 124 :: goBytes "https://x")
    ∧ splitFirst (goBytes "@c" ++ 124 :: goBytes "https://x")
      = some (goBytes "@c", goBytes "https://x")
    ∧ goString (goBytes "@c") = "@c" ∧ goString (goBytes "https://x") = "https://x" :=
  bloomFileName_roundtrip "@c" "https://x" (by decide) (by decide) (by decide)

/-- C5: for every delivery task the send is attempted at most 3 times;
with two failures then a success, MarkItemSeen runs exactly once and the
backoff sleep runs exactly twice (at attempt indices 0 and 1); with
three failures MarkItemSeen runs zero times and the store is untouched,
leaving the id eligible next cycle; and any MarkItemSeen call implies
some attempt was a confirmed success. -/
theorem deliverTask_retry_policy (Phi : FilterImpl) (dataDir : List Nat) (writeOk : Bool)
    (now : Int) (send : Nat → Bool) (st : StorageState Phi) (u n ch id : String) :
    (sendRetry send).attempts ≤ 3
    ∧ (send 0 = false → send 1 = false → send 2 = true →
        (deliverTask Phi dataDir writeOk now send st u n ch id).2.1 = 1
        ∧ (sendRetry send).backoffs = [0, 1])
    ∧ (send 0 = false → send 1 = false → send 2 = false →
        (deliverTask Phi dataDir writeOk now send st u n ch id).2.1 = 0
        ∧ (deliverTask Phi dataDir writeOk now send st u n ch id).2.2 = st)
    ∧ ((deliverTask Phi dataDir writeOk now send st u n ch id).2.1 ≥ 1 →
        ∃ i, i < 3 ∧ send i = true) := by
  refine ⟨?_, ?_, ?_, ?_⟩
  · cases h0 : send 0 <;> cases h1 : send 1 <;> cases h2 : send 2 <;>
      simp [sendRetry, sendRetryFrom, h0, h1, h2]
  · intro h0 h1 h2
    constructor <;> simp [deliverTask, sendRetry, sendRetryFrom, h0, h1, h2]
  · intro h0 h1 h2
    constructor <;> simp [deliverTask, sendRetry, sendRetryFrom, h0, h1, h2]
  · intro hm
    cases h0 : send 0 with
    | true => exact ⟨0, by omega, h0⟩
    | false =>
      cases h1 : send 1 with
      | true => exact ⟨1, by omega, h1⟩
      | false =>
        cases h2 : send 2 with
        | true => exact ⟨2, by omega, h2⟩
        | false =>
          simp [deliverTask, sendRetry, sendRetryFrom, h0, h1, h2] at hm

/-- Witness for the C5 theorem: the oracle succeeding only on the third
attempt gives one mark and backoffs at indices 0 and 1; the oracle that
always fails gives zero marks and an unchanged store. -/
theorem deliverTask_retry_policy_witness :
    (deliverTask listFilter (goBytes "data") true 0 (fun i => decide (i = 2))
      { states := fun _ => none, fs := fun _ => none } "u" "f" "c" "g1").2.1 = 1
    ∧ (sendRetry (fun i => decide (i = 2))).backoffs = [0, 1]
    ∧ (deliverTask listFilter (goBytes "data") true 0 (fun _ => false)
        { states := fun _ => none, fs := fun _ => none } "u" "f" "c" "g1").2.1 = 0
    ∧ (deliverTask listFilter (goBytes "data") true 0 (fun _ => false)
        { states := fun _ => none, fs := fun _ => none } "u" "f" "c" "g1").2.2
      = { states := fun _ => none, fs := fun _ => none } := by
  have h1 := deliverTask_retry_policy listFilter (goBytes "data") true 0
    (fun i => decide (i = 2)) { states := fun _ => none, fs := fun _ => none } "u" "f" "c" "g1"
  have h2 := deliverTask_retry_policy listFilter (goBytes "data") true 0
    (fun _ => false) { states := fun _ => none, fs := fun _ => none } "u" "f" "c" "g1"
  obtain ⟨ha, hb⟩ := h1.2.1 (by decide) (by decide) (by decide)
  obtain ⟨hc, hd⟩ := h2.2.2.1 rfl rfl rfl
  exact ⟨ha, hb, hc, hd⟩

/-- Feed configuration used by the C6 analysis: no per-feed expiry
configured. -/
def c6Cfg : FeedConfig :=
  { name := "f", url := "u", articleExpirationDurationHours := none, firstPush := true,
    channels := ["@c"], template := "" }

/-- Item used by the C6 analysis: it carries a publish timestamp of 0 and
is read 30 days and one nanosecond later, so it is older than the 30-day
system default. -/
def c6Item : Item :=
  { guid := "g1", link := "", title := "t", published := "", publishedParsed := some 0,
    description := "", content := "" }

/-- C6 counterexample: for a feed with no configured expiration value,
an item older than the 30-day system default is NOT skipped — the
filtering step keeps it, although the fixed-window check of the claimed
default would flag it as stale.  No default is derived: with a nil
per-feed value the code performs no staleness check at all. -/
theorem stale_no_config_counterexample :
    (filterStep listFilter (goBytes "data") true (fun s => s) (stateExpirationDuration + 1)
      c6Cfg false
      { st := { states := fun _ => none, fs := fun _ => none }, newItems := [],
        seenInThisRun := [] } c6Item).newItems = [c6Item]
    ∧ staleFixedWindow (stateExpirationDuration + 1) c6Item = true
    ∧ c6Cfg.articleExpirationDurationHours = none := by
  refine ⟨rfl, by decide, rfl⟩

/-- C6 amended: for an item that reaches the staleness check (it has a
title or link, its id is new to this run and to at least one channel,
and the first-run branch does not fire), the item is skipped as stale
exactly when it carries a publish timestamp, the feed configures an
expiration window in hours, and the age exceeds that window; a feed
with no configured value performs no staleness check (the older handler
variant instead applies the fixed 30-day window to every feed,
staleFixedWindow); items without a publish timestamp are never skipped
as stale. -/
theorem filterStep_stale_policy (Phi : FilterImpl) (dataDir : List Nat) (writeOk : Bool)
    (contentHash : String → String) (now : Int) (cfg : FeedConfig) (isFirstRun : Bool)
    (acc : FilterAcc Phi) (item : Item)
    (haddr : ¬(item.title = "" ∧ item.link = ""))
    (hdup : acc.seenInThisRun.contains (generateItemID contentHash item) = false)
    (hfr : ¬(isFirstRun = true ∧ cfg.firstPush = false))
    (hall : ¬(cfg.channels.all (fun channel =>
      IsItemSeen Phi acc.st cfg.url cfg.name channel (generateItemID contentHash item))
        = true)) :
    (∀ t hours, item.publishedParsed = some t →
      cfg.articleExpirationDurationHours = some hours →
      (filterStep Phi dataDir writeOk contentHash now cfg isFirstRun acc item).newItems
        = if now - t > hours * nsPerHour then acc.newItems else acc.newItems ++ [item])
    ∧ (cfg.articleExpirationDurationHours = none →
      (filterStep Phi dataDir writeOk contentHash now cfg isFirstRun acc item).newItems
        = acc.newItems ++ [item])
    ∧ (item.publishedParsed = none →
      (filterStep Phi dataDir writeOk contentHash now cfg isFirstRun acc item).newItems
        = acc.newItems ++ [item]) := by
  have hdup2 : ¬(acc.seenInThisRun.contains (generateItemID contentHash item) = true) := by
    rw [hdup]
    simp
  refine ⟨?_, ?_, ?_⟩
  · intro t hours hpub hhours
    simp only [filterStep]
    rw [if_neg haddr, if_neg hdup2, if_neg hfr, if_neg hall, hpub, hhours]
    by_cases hc : now - t > hours * nsPerHour
    · simp [hc]
    · simp [hc]
  · intro hhours
    simp only [filterStep]
    rw [if_neg haddr, if_neg hdup2, if_neg hfr, if_neg hall, hhours]
    cases item.publishedParsed <;> simp
  · intro hpub
    simp only [filterStep]
    rw [if_neg haddr, if_neg hdup2, if_neg hfr, if_neg hall, hpub]
    cases cfg.articleExpirationDurationHours <;> simp

/-- Witness for the amended C6 theorem: a feed configured with a 24-hour
window drops an item 25 hours old and keeps one 23 hours old; with no
configured window the 30-days-old item of the counterexample is kept. -/
theorem filterStep_stale_policy_witness :
    (filterStep listFilter (goBytes "data") true (fun s => s) (25 * nsPerHour)
      { c6Cfg with articleExpirationDurationHours := some 24 } false
      { st := { states := fun _ => none, fs := fun _ => none }, newItems := [],
        seenInThisRun := [] } c6Item).newItems = []
    ∧ (filterStep listFilter (goBytes "data") true (fun s => s) (23 * nsPerHour)
      { c6Cfg with articleExpirationDurationHours := some 24 } false
      { st := { states := fun _ => none, fs := fun _ => none }, newItems := [],
        seenInThisRun := [] } c6Item).newItems = [c6Item]
    ∧ (filterStep listFilter (goBytes "data") true (fun s => s) (stateExpirationDuration + 1)
      c6Cfg false
      { st := { states := fun _ => none, fs := fun _ => none }, newItems := [],
        seenInThisRun := [] } c6Item).newItems = [c6Item] := by
  have h1 := filterStep_stale_policy listFilter (goBytes "data") true (fun s => s)
    (25 * nsPerHour) { c6Cfg with articleExpirationDurationHours := some 24 } false
    { st := { states := fun _ => none, fs := fun _ => none }, newItems := [],
      seenInThisRun := [] } c6Item (by decide) (by decide) (by decide) (by decide)
  have h2 := filterStep_stale_policy listFilter (goBytes "data") true (fun s => s)
    (23 * nsPerHour) { c6Cfg with articleExpirationDurationHours := some 24 } false
    { st := { states := fun _ => none, fs := fun _ => none }, newItems := [],
      seenInThisRun := [] } c6Item (by decide) (by decide) (by decide) (by decide)
  have h3 := filterStep_stale_policy listFilter (goBytes "data") true (fun s => s)
    (stateExpirationDuration + 1) c6Cfg false
    { st := { states := fun _ => none, fs := fun _ => none }, newItems := [],
      seenInThisRun := [] } c6Item (by decide) (by decide) (by decide) (by decide)
  refine ⟨?_, ?_, ?_⟩
  · rw [h1.1 0 24 rfl rfl, if_pos (by decide)]
  · rw [h2.1 0 24 rfl rfl, if_neg (by decide)]
    rfl
  · rw [h3.2.1 rfl]
    rfl

theorem mem_orderedInsert {α : Type} (le : α → α → Bool) (a x : α) (l : List α) :
    x ∈ orderedInsert le a l ↔ x = a ∨ x ∈ l := by
  induction l with
  | nil => simp [orderedInsert]
  | cons b l ih =>
    by_cases h : le a b
    · simp [orderedInsert, h]
    · simp [orderedInsert, h, ih]
      tauto

theorem orderedInsert_perm {α : Type} (le : α → α → Bool) (a : α) (l : List α) :
    List.Perm (orderedInsert le a l) (a :: l) := by
  induction l with
  | nil => simp [orderedInsert]
  | cons b l ih =>
    by_cases h : le a b
    · simp [orderedInsert, h]
    · simp only [orderedInsert, h, if_false]
      exact (ih.cons b).trans (List.Perm.swap a b l)

theorem sortByTime_perm {α : Type} (le : α → α → Bool) (l : List α) :
    List.Perm (sortByTime le l) l := by
  induction l with
  | nil => simp [sortByTime]
  | cons a l ih =>
    exact (orderedInsert_perm le a (sortByTime le l)).trans (ih.cons a)

theorem pairwise_orderedInsert {α : Type} (le : α → α → Bool)
    (htotal : ∀ a b, le a b = true ∨ le b a = true)
    (htrans : ∀ a b c, le a b = true → le b c = true → le a c = true)
    (a : α) (l : List α) (h : List.Pairwise (fun x y => le x y = true) l) :
    List.Pairwise (fun x y => le x y = true) (orderedInsert le a l) := by
  induction l with
  | nil => simp [orderedInsert]
  | cons b l ih =>
    rcases List.pairwise_cons.mp h with ⟨hb, hl⟩
    by_cases hab : le a b = true
    · rw [orderedInsert, if_pos hab]
      refine List.pairwise_cons.mpr ⟨?_, h⟩
      intro y hy
      rcases List.mem_cons.mp hy with hy | hy
      · rw [hy]; exact hab
      · exact htrans a b y hab (hb y hy)
    · have hba : le b a = true := (htotal a b).resolve_left hab
      rw [orderedInsert, if_neg hab]
      refine List.pairwise_cons.mpr ⟨?_, ih hl⟩
      intro y hy
      rcases (mem_orderedInsert le a y l).mp hy with hy | hy
      · rw [hy]; exact hba
      · exact hb y hy

theorem pairwise_sortByTime {α : Type} (le : α → α → Bool)
    (htotal : ∀ a b, le a b = true ∨ le b a = true)
    (htrans : ∀ a b c, le a b = true → le b c = true → le a c = true)
    (l : List α) : List.Pairwise (fun x y => le x y = true) (sortByTime le l) := by
  induction l with
  | nil => simp [sortByTime]
  | cons a l ih => exact pairwise_orderedInsert le htotal htrans a (sortByTime le l) ih

theorem itemLe_total (a b : Item) : itemLe a b = true ∨ itemLe b a = true := by
  simp [itemLe]
  exact Int.le_total _ _

theorem itemLe_trans (a b c : Item) (h1 : itemLe a b = true) (h2 : itemLe b c = true) :
    itemLe a c = true := by
  simp [itemLe] at h1 h2 ⊢
  omega

/-- Item used in the ordering example, published 2024-01-03 (modelled as
time 3). -/
def exItemA : Item :=
  { guid := "A", link := "", title := "A", published := "", publishedParsed := some 3,
    description := "", content := "" }

/-- Item used in the ordering example, no publish timestamp. -/
def exItemB : Item :=
  { guid := "B", link := "", title := "B", published := "", publishedParsed := none,
    description := "", content := "" }

/-- Item used in the ordering example, published 2024-01-01 (modelled as
time 1). -/
def exItemC : Item :=
  { guid := "C", link := "", title := "C", published := "", publishedParsed := some 1,
    description := "", content := "" }

/-- C7: the ordering pass puts the timestamped survivors first as an
ascending (by publish time) permutation of the timestamped partition,
followed by the untimestamped survivors in their original feed order; on
the fetched order A(published third), B(no timestamp), C(published
first) it dispatches C, A, B. -/
theorem orderStage_ordering :
    (∀ items : List Item,
      orderStage items
        = sortByTime itemLe (items.filter fun it => it.publishedParsed.isSome)
          ++ items.filter (fun it => it.publishedParsed.isNone)
      ∧ List.Perm (sortByTime itemLe (items.filter fun it => it.publishedParsed.isSome))
          (items.filter fun it => it.publishedParsed.isSome)
      ∧ List.Pairwise (fun a b => itemLe a b = true)
          (sortByTime itemLe (items.filter fun it => it.publishedParsed.isSome)))
    ∧ orderStage [exItemA, exItemB, exItemC] = [exItemC, exItemA, exItemB] := by
  constructor
  · intro items
    exact ⟨rfl, sortByTime_perm itemLe _, pairwise_sortByTime itemLe itemLe_total
      itemLe_trans _⟩
  · decide

theorem foldl_mark_preserve (Phi : FilterImpl)
    (hmono : ∀ f id j, Phi.test f id = true → Phi.test (Phi.add f j) id = true)
    (dataDir : List Nat) (writeOk : Bool) (now : Int) (u n id : String)
    (channels : List String) (st : StorageState Phi) (u2 n2 ch2 id2 : String)
    (h : IsItemSeen Phi st u2 n2 ch2 id2 = true) :
    IsItemSeen Phi
      (channels.foldl
        (fun s channel => (MarkItemSeen Phi dataDir writeOk now s u n channel id).2) st)
      u2 n2 ch2 id2 = true := by
  induction channels generalizing st with
  | nil => exact h
  | cons c cs ih =>
    exact ih _ (isItemSeen_mark_preserve Phi hmono dataDir writeOk now st u n c id
      u2 n2 ch2 id2 h)

theorem foldl_mark_marks (Phi : FilterImpl)
    (htest_add : ∀ f id, Phi.test (Phi.add f id) id = true)
    (hmono : ∀ f id j, Phi.test f id = true → Phi.test (Phi.add f j) id = true)
    (dataDir : List Nat) (writeOk : Bool) (now : Int) (u n n2 id : String)
    (channels : List String) (st : StorageState Phi) (ch : String) (hch : ch ∈ channels) :
    IsItemSeen Phi
      (channels.foldl
        (fun s channel => (MarkItemSeen Phi dataDir writeOk now s u n channel id).2) st)
      u n2 ch id = true := by
  induction channels generalizing st with
  | nil => simp at hch
  | cons c cs ih =>
    rcases List.mem_cons.mp hch with hh | hh
    · subst hh
      simp only [List.foldl_cons]
      exact foldl_mark_preserve Phi hmono dataDir writeOk now u n id cs _ u n2 ch id
        (isItemSeen_mark_self Phi htest_add dataDir writeOk now st u n n2 ch id)
    · exact ih _ hh

theorem markAllChannels_preserve (Phi : FilterImpl)
    (hmono : ∀ f id j, Phi.test f id = true → Phi.test (Phi.add f j) id = true)
    (dataDir : List Nat) (writeOk : Bool) (now : Int) (cfg : FeedConfig) (itemID : String)
    (st : StorageState Phi) (u2 n2 ch2 id2 : String)
    (h : IsItemSeen Phi st u2 n2 ch2 id2 = true) :
    IsItemSeen Phi (markAllChannels Phi dataDir writeOk now cfg itemID st) u2 n2 ch2 id2
      = true :=
  foldl_mark_preserve Phi hmono dataDir writeOk now cfg.url cfg.name itemID cfg.channels
    st u2 n2 ch2 id2 h

theorem markAllChannels_marks (Phi : FilterImpl)
    (htest_add : ∀ f id, Phi.test (Phi.add f id) id = true)
    (hmono : ∀ f id j, Phi.test f id = true → Phi.test (Phi.add f j) id = true)
    (dataDir : List Nat) (writeOk : Bool) (now : Int) (cfg : FeedConfig) (itemID n2 : String)
    (st : StorageState Phi) (ch : String) (hch : ch ∈ cfg.channels) :
    IsItemSeen Phi (markAllChannels Phi dataDir writeOk now cfg itemID st) cfg.url n2 ch
      itemID = true :=
  foldl_mark_marks Phi htest_add hmono dataDir writeOk now cfg.url cfg.name n2 itemID
    cfg.channels st ch hch

/-- In a first run of a feed that opted out of first push, the filtering
step either drops an un-addressable item or marks the resolved id for
every channel; nothing else happens. -/
theorem filterStep_firstRun_char (Phi : FilterImpl) (dataDir : List Nat) (writeOk : Bool)
    (contentHash : String → String) (now : Int) (cfg : FeedConfig)
    (hfp : cfg.firstPush = false) (acc : FilterAcc Phi) (item : Item)
    (hseen : acc.seenInThisRun = []) :
    filterStep Phi dataDir writeOk contentHash now cfg true acc item
      = if item.title = "" ∧ item.link = "" then acc
        else { acc with st := (markAllChannels Phi dataDir writeOk now cfg
          (generateItemID contentHash item) acc.st) } := by
  by_cases haddr : item.title = "" ∧ item.link = ""
  · simp [filterStep, haddr]
  · simp [filterStep, haddr, hseen, hfp]

theorem filterFold_firstRun (Phi : FilterImpl)
    (htest_add : ∀ f id, Phi.test (Phi.add f id) id = true)
    (hmono : ∀ f id j, Phi.test f id = true → Phi.test (Phi.add f j) id = true)
    (dataDir : List Nat) (writeOk : Bool) (contentHash : String → String) (now : Int)
    (cfg : FeedConfig) (hfp : cfg.firstPush = false) (l : List Item) (acc : FilterAcc Phi)
    (hseen : acc.seenInThisRun = []) :
    (l.foldl (filterStep Phi dataDir writeOk contentHash now cfg true) acc).seenInThisRun
      = []
    ∧ (l.foldl (filterStep Phi dataDir writeOk contentHash now cfg true) acc).newItems
      = acc.newItems
    ∧ (∀ u2 n2 ch2 id2, IsItemSeen Phi acc.st u2 n2 ch2 id2 = true →
        IsItemSeen Phi
          (l.foldl (filterStep Phi dataDir writeOk contentHash now cfg true) acc).st
          u2 n2 ch2 id2 = true)
    ∧ (∀ item ∈ l, ¬(item.title = "" ∧ item.link = "") → ∀ ch ∈ cfg.channels,
        IsItemSeen Phi
          (l.foldl (filterStep Phi dataDir writeOk contentHash now cfg true) acc).st
          cfg.url cfg.name ch (generateItemID contentHash item) = true) := by
  induction l generalizing acc with
  | nil =>
    refine ⟨hseen, rfl, fun u2 n2 ch2 id2 h => h, ?_⟩
    intro item him
    simp at him
  | cons item l ih =>
    have hchar := filterStep_firstRun_char Phi dataDir writeOk contentHash now cfg hfp acc
      item hseen
    simp only [List.foldl_cons, hchar]
    by_cases haddr : item.title = "" ∧ item.link = ""
    · rw [if_pos haddr]
      obtain ⟨i1, i2, i3, i4⟩ := ih acc hseen
      refine ⟨i1, i2, i3, ?_⟩
      intro it hit hadd ch hch
      rcases List.mem_cons.mp hit with hh | hh
      · exact absurd haddr (hh ▸ hadd)
      · exact i4 it hh hadd ch hch
    · rw [if_neg haddr]
      set acc1 : FilterAcc Phi :=
        { acc with st := (markAllChannels Phi dataDir writeOk now cfg
            (generateItemID contentHash item) acc.st) } with hacc1
      obtain ⟨i1, i2, i3, i4⟩ := ih acc1 hseen
      refine ⟨i1, i2, ?_, ?_⟩
      · intro u2 n2 ch2 id2 h
        exact i3 u2 n2 ch2 id2
          (markAllChannels_preserve Phi hmono dataDir writeOk now cfg _ acc.st u2 n2 ch2
            id2 h)
      · intro it hit hadd ch hch
        rcases List.mem_cons.mp hit with hh | hh
        · subst hh
          exact i3 cfg.url cfg.name ch (generateItemID contentHash it)
            (markAllChannels_marks Phi htest_add hmono dataDir writeOk now cfg _ cfg.name
              acc.st ch hch)
        · exact i4 it hh hadd ch hch

/-- Outside a first run the filtering step never touches the store, and
an item enters the survivor list only when some channel has not seen its
id. -/
theorem filterStep_notFirstRun_char (Phi : FilterImpl) (dataDir : List Nat) (writeOk : Bool)
    (contentHash : String → String) (now : Int) (cfg : FeedConfig) (acc : FilterAcc Phi)
    (item : Item) :
    (filterStep Phi dataDir writeOk contentHash now cfg false acc item).st = acc.st
    ∧ ((filterStep Phi dataDir writeOk contentHash now cfg false acc item).newItems
        = acc.newItems
      ∨ ((filterStep Phi dataDir writeOk contentHash now cfg false acc item).newItems
          = acc.newItems ++ [item]
        ∧ ¬(cfg.channels.all (fun channel =>
            IsItemSeen Phi acc.st cfg.url cfg.name channel
              (generateItemID contentHash item)) = true))) := by
  simp only [filterStep]
  by_cases h1 : item.title = "" ∧ item.link = ""
  · rw [if_pos h1]
    exact ⟨rfl, .inl rfl⟩
  · rw [if_neg h1]
    by_cases h2 : acc.seenInThisRun.contains (generateItemID contentHash item) = true
    · rw [if_pos h2]
      exact ⟨rfl, .inl rfl⟩
    · rw [if_neg h2]
      rw [if_neg (show ¬((false : Bool) = true ∧ cfg.firstPush = false) by simp)]
      by_cases h3 : cfg.channels.all (fun channel =>
        IsItemSeen Phi acc.st cfg.url cfg.name channel
          (generateItemID contentHash item)) = true
      · rw [if_pos h3]
        exact ⟨rfl, .inl rfl⟩
      · rw [if_neg h3]
        constructor
        · split <;> rfl
        · split
          · exact .inl rfl
          · exact .inr ⟨rfl, h3⟩

theorem filterFold_notFirstRun (Phi : FilterImpl) (dataDir : List Nat) (writeOk : Bool)
    (contentHash : String → String) (now : Int) (cfg : FeedConfig) (l : List Item)
    (acc : FilterAcc Phi) :
    (l.foldl (filterStep Phi dataDir writeOk contentHash now cfg false) acc).st = acc.st
    ∧ (∀ item ∈ (l.foldl (filterStep Phi dataDir writeOk contentHash now cfg false)
          acc).newItems,
        item ∈ acc.newItems
        ∨ ∃ ch ∈ cfg.channels,
            IsItemSeen Phi acc.st cfg.url cfg.name ch (generateItemID contentHash item)
              = false) := by
  induction l generalizing acc with
  | nil => exact ⟨rfl, fun item him => .inl him⟩
  | cons item l ih =>
    obtain ⟨hst, hni⟩ := filterStep_notFirstRun_char Phi dataDir writeOk contentHash now
      cfg acc item
    simp only [List.foldl_cons]
    obtain ⟨i1, i2⟩ := ih (filterStep Phi dataDir writeOk contentHash now cfg false acc item)
    refine ⟨i1.trans hst, ?_⟩
    intro it hit
    rcases i2 it hit with hin | ⟨ch, hch, hseen⟩
    · rcases hni with hni | ⟨hni, hnall⟩
      · exact .inl (hni ▸ hin)
      · rw [hni] at hin
        rcases List.mem_append.mp hin with hin2 | hin2
        · exact .inl hin2
        · have heq : it = item := by simpa using hin2
          subst heq
          right
          have hnot : ¬ ∀ x ∈ cfg.channels,
              IsItemSeen Phi acc.st cfg.url cfg.name x (generateItemID contentHash it)
                = true :=
            fun hall => hnall (List.all_eq_true.mpr hall)
          push_neg at hnot
          obtain ⟨ch, hch, hx⟩ := hnot
          exact ⟨ch, hch, by simpa using hx⟩
    · rw [hst] at hseen
      exact .inr ⟨ch, hch, hseen⟩

theorem mem_orderStage (items : List Item) (x : Item) (hx : x ∈ orderStage items) :
    x ∈ items := by
  rcases List.mem_append.mp hx with hx | hx
  · exact List.mem_of_mem_filter ((sortByTime_perm itemLe _).mem_iff.mp hx)
  · exact List.mem_of_mem_filter hx

/-- C4 amended: for a feed with firstPush=false whose channels have no
bucket file at the start of processFeed, every fetched item that has a
title or a link is marked seen for every configured channel, the
survivor list is empty, and zero sends are attempted; in a later cycle
(some bucket file exists, so the first-run probe is negative) every
dispatched item has at least one configured channel that had not seen
its id.  Items with neither title nor link are skipped without being
marked (the source change forced by the counterexample). -/
theorem processFeed_firstRun_suppression (Phi : FilterImpl)
    (htest_add : ∀ f id, Phi.test (Phi.add f id) id = true)
    (hmono : ∀ f id j, Phi.test f id = true → Phi.test (Phi.add f j) id = true)
    (dataDir : List Nat) (writeOk : Bool) (contentHash : String → String)
    (render : Item → String → String) (send : String → String → Nat → Bool) (now : Int)
    (cfg : FeedConfig) (st : StorageState Phi) (items : List Item) :
    (cfg.firstPush = false → computeIsFirstRun Phi dataDir st cfg = true →
      (∀ item ∈ items, ¬(item.title = "" ∧ item.link = "") → ∀ ch ∈ cfg.channels,
        IsItemSeen Phi
          (processFeed Phi dataDir writeOk contentHash render send now cfg st items).1
          cfg.url cfg.name ch (generateItemID contentHash item) = true)
      ∧ (processFeed Phi dataDir writeOk contentHash render send now cfg st items).2.1 = []
      ∧ (processFeed Phi dataDir writeOk contentHash render send now cfg st items).2.2 = 0)
    ∧ (computeIsFirstRun Phi dataDir st cfg = false →
      ∀ item ∈ (processFeed Phi dataDir writeOk contentHash render send now cfg
          st items).2.1,
        ∃ ch ∈ cfg.channels,
          IsItemSeen Phi st cfg.url cfg.name ch (generateItemID contentHash item)
            = false) := by
  by_cases hemp : items.isEmpty = true
  · have hitems : items = [] := by
      cases items with
      | nil => rfl
      | cons a l => simp [List.isEmpty] at hemp
    subst hitems
    constructor
    · intro hfp hfirst
      exact ⟨fun item him => absurd him (by simp), rfl, rfl⟩
    · intro hfirst item him
      exact absurd him (by simp [processFeed])
  · have hemp2 : items.isEmpty = false := by
      cases h : items.isEmpty with
      | true => exact absurd h hemp
      | false => rfl
    constructor
    · intro hfp hfirst
      have hpf0 : (processFeed Phi dataDir writeOk contentHash render send now cfg
          st items).1
          = (dispatchStage Phi dataDir writeOk contentHash render send now cfg
              (orderStage (filterStage Phi dataDir writeOk contentHash now cfg true st
                items).newItems)
              (filterStage Phi dataDir writeOk contentHash now cfg true st items).st).2 := by
        simp [processFeed, hemp2, hfirst]
      have hpf1 : (processFeed Phi dataDir writeOk contentHash render send now cfg
          st items).2.1
          = orderStage (filterStage Phi dataDir writeOk contentHash now cfg true st
              items).newItems := by
        simp [processFeed, hemp2, hfirst]
      have hpf2 : (processFeed Phi dataDir writeOk contentHash render send now cfg
          st items).2.2
          = (dispatchStage Phi dataDir writeOk contentHash render send now cfg
              (orderStage (filterStage Phi dataDir writeOk contentHash now cfg true st
                items).newItems)
              (filterStage Phi dataDir writeOk contentHash now cfg true st items).st).1 := by
        simp [processFeed, hemp2, hfirst]
      obtain ⟨f1, f2, f3, f4⟩ := filterFold_firstRun Phi htest_add hmono dataDir writeOk
        contentHash now cfg hfp items
        { st := st, newItems := [], seenInThisRun := [] } rfl
      have hord : orderStage (filterStage Phi dataDir writeOk contentHash now cfg true st
          items).newItems = [] := by
        show orderStage (items.foldl
          (filterStep Phi dataDir writeOk contentHash now cfg true)
          { st := st, newItems := [], seenInThisRun := [] }).newItems = []
        rw [f2]
        rfl
      refine ⟨?_, ?_, ?_⟩
      · intro item him hadd ch hch
        rw [hpf0, hord]
        exact f4 item him hadd ch hch
      · rw [hpf1, hord]
      · rw [hpf2, hord]
        rfl
    · intro hfirst item him
      have hpf1 : (processFeed Phi dataDir writeOk contentHash render send now cfg
          st items).2.1
          = orderStage (filterStage Phi dataDir writeOk contentHash now cfg false st
              items).newItems := by
        simp [processFeed, hemp2, hfirst]
      rw [hpf1] at him
      have hmem := mem_orderStage _ _ him
      obtain ⟨g1, g2⟩ := filterFold_notFirstRun Phi dataDir writeOk contentHash now cfg
        items { st := st, newItems := [], seenInThisRun := [] }
      rcases g2 item hmem with hin | ⟨ch, hch, hfalse⟩
      · exact absurd hin (by simp)
      · exact ⟨ch, hch, hfalse⟩

/-- Feed configuration of the C4 analysis: first push opted out, one
channel. -/
def c4Cfg : FeedConfig :=
  { name := "f", url := "u", articleExpirationDurationHours := none, firstPush := false,
    channels := ["@c"], template := "" }

/-- Item of the C4 counterexample: it has a GUID (so a perfectly good
id) but neither title nor link. -/
def c4Item : Item :=
  { guid := "g1", link := "", title := "", published := "", publishedParsed := none,
    description := "", content := "" }

/-- C4 counterexample: on a first run with firstPush=false, a fetched
item with neither title nor link is skipped without being marked — after
the cycle no bucket exists for the feed at all and IsItemSeen on the
item id is still false, although the claim requires every fetched item
to be marked seen for every configured channel. -/
theorem processFeed_firstRun_skips_unaddressable :
    c4Cfg.firstPush = false
    ∧ computeIsFirstRun listFilter (goBytes "data")
        { states := fun _ => none, fs := fun _ => none } c4Cfg = true
    ∧ ((processFeed listFilter (goBytes "data") true (fun s => s) (fun _ _ => "m")
        (fun _ _ _ => true) 0 c4Cfg { states := fun _ => none, fs := fun _ => none }
        [c4Item]).1).states "u" = none
    ∧ IsItemSeen listFilter
        (processFeed listFilter (goBytes "data") true (fun s => s) (fun _ _ => "m")
          (fun _ _ _ => true) 0 c4Cfg { states := fun _ => none, fs := fun _ => none }
          [c4Item]).1
        "u" "f" "@c" "g1" = false := by
  exact ⟨rfl, rfl, rfl, rfl⟩

/-- Witness for the amended C4 theorem: a first run over one addressable
item marks it for both channels and sends nothing; a later cycle (a
bucket file exists) only dispatches items some channel has not seen. -/
theorem processFeed_firstRun_suppression_witness :
    IsItemSeen listFilter
      (processFeed listFilter (goBytes "data") true (fun s => s) (fun _ _ => "m")
        (fun _ _ _ => true) 0
        { name := "f", url := "u", articleExpirationDurationHours := none,
          firstPush := false, channels := ["@a", "@b"], template := "" }
        { states := fun _ => none, fs := fun _ => none }
        [{ guid := "g1", link := "", title := "t", published := "", publishedParsed := none,
           description := "", content := "" }]).1
      "u" "f" "@a" "g1" = true
    ∧ (processFeed listFilter (goBytes "data") true (fun s => s) (fun _ _ => "m")
        (fun _ _ _ => true) 0
        { name := "f", url := "u", articleExpirationDurationHours := none,
          firstPush := false, channels := ["@a", "@b"], template := "" }
        { states := fun _ => none, fs := fun _ => none }
        [{ guid := "g1", link := "", title := "t", published := "", publishedParsed := none,
           description := "", content := "" }]).2.2 = 0
    ∧ (∃ ch ∈ ["@a", "@b"],
        IsItemSeen listFilter
          { states := fun _ => none,
            fs := upd (fun _ => none) (GetBloomFilePath (goBytes "data") "u" "@a") [] }
          "u" "f" ch "g1" = false) := by
  have h1 := processFeed_firstRun_suppression listFilter listFilter_test_add
    listFilter_test_mono (goBytes "data") true (fun s => s) (fun _ _ => "m")
    (fun _ _ _ => true) 0
    { name := "f", url := "u", articleExpirationDurationHours := none,
      firstPush := false, channels := ["@a", "@b"], template := "" }
    { states := fun _ => none, fs := fun _ => none }
    [{ guid := "g1", link := "", title := "t", published := "", publishedParsed := none,
       description := "", content := "" }]
  have h2 := processFeed_firstRun_suppression listFilter listFilter_test_add
    listFilter_test_mono (goBytes "data") true (fun s => s) (fun _ _ => "m")
    (fun _ _ _ => true) 0
    { name := "f", url := "u", articleExpirationDurationHours := none,
      firstPush := false, channels := ["@a", "@b"], template := "" }
    { states := fun _ => none,
      fs := upd (fun _ => none) (GetBloomFilePath (goBytes "data") "u" "@a") [] }
    [{ guid := "g1", link := "", title := "t", published := "", publishedParsed := none,
       description := "", content := "" }]
  obtain ⟨m1, _, m3⟩ := h1.1 rfl rfl
  refine ⟨?_, m3, ?_⟩
  · exact m1
      { guid := "g1", link := "", title := "t", published := "", publishedParsed := none,
        description := "", content := "" } (by simp) (by simp) "@a" (by simp)
  · exact h2.2 (by decide)
      { guid := "g1", link := "", title := "t", published := "", publishedParsed := none,
        description := "", content := "" } (by decide)
